import Mathlib

/-!
Verification of the Document Q&A application (documentQA.py).

The Lean definitions below are a shallow embedding of the Python source:
Python values relevant to the claims become the inductive `PyVal`, exceptions
become `Except PyError`, object attribute lookup becomes lookup in an explicit
attribute-name list, and the external library calls (the LLM, the retrieval
chain and `json.loads`) are parameters of the embedded functions, supplied by
each theorem.  Pure Python string operations (`str.find`, `str.rfind`,
slicing, `str.endswith`) are implemented faithfully.
-/

namespace DocumentQA

/-- Python runtime errors relevant to the modelled code paths. -/
inductive PyError where
  | attributeError (name : String)
  | typeError (msg : String)
  | keyError (key : String)
  deriving Repr, DecidableEq

/-- Python values as they appear in this program: JSON-decodable data and the
scalar metadata values. -/
inductive PyVal where
  | none
  | bool (b : Bool)
  | int (n : Int)
  | str (s : String)
  | list (xs : List PyVal)
  | dict (kvs : List (String × PyVal))
  deriving Repr

mutual

/-- Structural equality on Python values (Python `==` on JSON-like data). -/
def pyBeq : PyVal → PyVal → Bool
  | .none, .none => true
  | .bool a, .bool b => a == b
  | .int a, .int b => a == b
  | .str a, .str b => a == b
  | .list xs, .list ys => pyBeqElems xs ys
  | .dict xs, .dict ys => pyBeqPairs xs ys
  | _, _ => false

def pyBeqElems : List PyVal → List PyVal → Bool
  | [], [] => true
  | x :: xs, y :: ys => pyBeq x y && pyBeqElems xs ys
  | _, _ => false

def pyBeqPairs : List (String × PyVal) → List (String × PyVal) → Bool
  | [], [] => true
  | (k, v) :: xs, (l, w) :: ys => k == l && pyBeq v w && pyBeqPairs xs ys
  | _, _ => false

end

mutual

def pyBeq_iff : (a b : PyVal) → (pyBeq a b = true ↔ a = b)
  | .none, b => by cases b <;> simp [pyBeq]
  | .bool x, b => by cases b <;> simp [pyBeq]
  | .int x, b => by cases b <;> simp [pyBeq]
  | .str x, b => by cases b <;> simp [pyBeq]
  | .list xs, b => by
      cases b <;> simp [pyBeq]
      exact pyBeqElems_iff xs _
  | .dict xs, b => by
      cases b <;> simp [pyBeq]
      exact pyBeqPairs_iff xs _

def pyBeqElems_iff : (xs ys : List PyVal) → (pyBeqElems xs ys = true ↔ xs = ys)
  | [], ys => by cases ys <;> simp [pyBeqElems]
  | x :: xs, ys => by
      cases ys with
      | nil => simp [pyBeqElems]
      | cons y ys =>
          simp [pyBeqElems, Bool.and_eq_true, pyBeq_iff x y, pyBeqElems_iff xs ys]

def pyBeqPairs_iff : (xs ys : List (String × PyVal)) → (pyBeqPairs xs ys = true ↔ xs = ys)
  | [], ys => by cases ys <;> simp [pyBeqPairs]
  | (k, v) :: xs, ys => by
      cases ys with
      | nil => simp [pyBeqPairs]
      | cons p ys =>
          obtain ⟨l, w⟩ := p
          simp [pyBeqPairs, Bool.and_eq_true, pyBeq_iff v w, pyBeqPairs_iff xs ys,
            and_assoc]

end

instance : DecidableEq PyVal :=
  fun a b => decidable_of_iff (pyBeq a b = true) (pyBeq_iff a b)

instance {ε α : Type} [DecidableEq ε] [DecidableEq α] : DecidableEq (Except ε α) :=
  fun a b =>
    match a, b with
    | .ok x, .ok y =>
        if h : x = y then isTrue (by rw [h])
        else isFalse (by intro hc; cases hc; exact h rfl)
    | .error x, .error y =>
        if h : x = y then isTrue (by rw [h])
        else isFalse (by intro hc; cases hc; exact h rfl)
    | .ok _, .error _ => isFalse (by intro hc; cases hc)
    | .error _, .ok _ => isFalse (by intro hc; cases hc)

/-- A single-quote character, used when rendering Python `str()` output. -/
def sq : String := String.singleton (Char.ofNat 39)

mutual

/-- Python `str()` / `repr()` of a value (containers render their elements
with `repr`, which is what `str(value)` does for lists and dicts). -/
def pyRepr : PyVal → String
  | .none => "None"
  | .bool true => "True"
  | .bool false => "False"
  | .int n => toString n
  | .str s => sq ++ s ++ sq
  | .list xs => "[" ++ pyReprElems xs ++ "]"
  | .dict kvs => "\x7b" ++ pyReprPairs kvs ++ "\x7d"

def pyReprElems : List PyVal → String
  | [] => ""
  | [x] => pyRepr x
  | x :: y :: rest => pyRepr x ++ ", " ++ pyReprElems (y :: rest)

def pyReprPairs : List (String × PyVal) → String
  | [] => ""
  | [(k, v)] => sq ++ k ++ sq ++ ": " ++ pyRepr v
  | (k, v) :: p :: rest => sq ++ k ++ sq ++ ": " ++ pyRepr v ++ ", " ++ pyReprPairs (p :: rest)

end

/-- Whether a value is one of the "complex" kinds the simplification step
targets: `isinstance(value, (list, dict))`. -/
def isListOrDict : PyVal → Bool
  | .list _ => true
  | .dict _ => true
  | _ => false

/-- Whether a value is a Python string. -/
def isStr : PyVal → Bool
  | .str _ => true
  | _ => false

/-- `simplify_metadata` from `ChatWithFile.store_in_chroma`: for each metadata
key, replace a list- or dict-valued entry by `str(value)`; all other values
(ints, bools, strings, None) are left untouched.  Metadata is the ordered
key/value association of the document. -/
def simplify_metadata (metadata : List (String × PyVal)) : List (String × PyVal) :=
  metadata.map (fun kv =>
    if isListOrDict kv.2 then (kv.1, PyVal.str (pyRepr kv.2)) else kv)

/-- The property claimed by the spec sentence "metadata is string-valued
only": every value of the metadata mapping is a Python string. -/
def metadataAllStrings (metadata : List (String × PyVal)) : Bool :=
  metadata.all (fun kv => isStr kv.2)

/-! ### Python string primitives used by `generate_related_queries` and the
upload handler. -/

/-- Helper for `pyFind`: index of the first occurrence of `c`, counting from
`i`; `-1` when absent. -/
def pyFindAux (c : Char) : List Char → Int → Int
  | [], _ => -1
  | x :: xs, i => if x = c then i else pyFindAux c xs (i + 1)

/-- Python `s.find(c)`: index of the first occurrence of `c` in `s`, or `-1`. -/
def pyFind (s : String) (c : Char) : Int :=
  pyFindAux c s.data 0

/-- Helper for `pyRFind`: the last occurrence wins. -/
def pyRFindAux (c : Char) : List Char → Int → Int → Int
  | [], _, acc => acc
  | x :: xs, i, acc => pyRFindAux c xs (i + 1) (if x = c then i else acc)

/-- Python `s.rfind(c)`: index of the last occurrence of `c` in `s`, or `-1`. -/
def pyRFind (s : String) (c : Char) : Int :=
  pyRFindAux c s.data 0 (-1)

/-- Python slicing `s[start:stop]` with negative-index normalisation and
clamping, as the CPython semantics prescribe. -/
def pySlice (s : String) (start stop : Int) : String :=
  let n : Int := (s.data.length : Int)
  let a : Int := if start < 0 then max (start + n) 0 else min start n
  let b : Int := if stop < 0 then max (stop + n) 0 else min stop n
  String.mk ((s.data.drop a.toNat).take (b.toNat - a.toNat))

/-- Python `s.endswith(suffix)`. -/
def pyEndsWith (s suffix : String) : Bool :=
  suffix.data.isSuffixOf s.data

/-! ### Conversation messages and LLM responses -/

/-- Conversation messages (the `HumanMessage` / `AIMessage` classes). -/
inductive Msg where
  | human (content : String)
  | ai (content : String)
  deriving Repr, DecidableEq

/-- The shape of the object returned by `self.llm.invoke`, as far as
`generate_related_queries` and `chat` inspect it. -/
inductive LLMResponse where
  | withContent (content : String)
  | dictContent (content : String)
  | other (asString : String)
  deriving Repr, DecidableEq

/-- `self.llm.invoke`, an external library call: `none` models a Python
`None` return (falsy), otherwise a response object. -/
def LLMFun : Type := String → Option LLMResponse

/-- `json.loads`, an external library function: `none` models a parse failure
(a `ValueError` / `JSONDecodeError` being raised), `some v` a successful
parse yielding `v`. -/
def JsonLoads : Type := String → Option PyVal

/-- The content-extraction chain at the top of `generate_related_queries`:
an object with a `content` attribute yields that attribute, a dict with a
`content` key yields that entry, anything else falls back to `str(response)`
(for `None` that is the string `"None"`). -/
def extract_text : Option LLMResponse → String
  | Option.none => "None"
  | some (.withContent c) => c
  | some (.dictContent c) => c
  | some (.other s) => s

/-- The fixed query-expansion instruction of `generate_related_queries`,
with the original query interpolated. -/
def related_query_prompt (original_query : String) : String :=
  "In light of the original inquiry: " ++ sq ++ original_query ++ sq ++
  ", let" ++ sq ++ "s delve deeper and broaden our exploration. Please construct a JSON array containing four distinct but interconnected search queries. Each query should reinterpret the original prompt" ++ sq ++
  "s essence, introducing new dimensions or perspectives to investigate. Aim for a blend of complexity and specificity in your rephrasings, ensuring each query unveils different facets of the original question. This approach is intended to encapsulate a more comprehensive understanding and generate the most insightful answers possible. Only respond with the JSON array itself."

/-- The slice `generated_text[json_start:json_end]` computed by
`generate_related_queries`: from the first `[` to the last `]`, inclusive. -/
def bracket_slice (generated_text : String) : String :=
  let json_start := pyFind generated_text '['
  let json_end := pyRFind generated_text ']' + 1
  pySlice generated_text json_start json_end

/-- `ChatWithFile.generate_related_queries`: invoke the OpenAI LLM on the
expansion prompt (an unbound `self.llm` is `None`, so `.invoke` raises
`AttributeError`), extract the response text, slice out the bracketed
substring and `json.loads` it; a parse failure is swallowed into `[]`. -/
def generate_related_queries (llm : Option LLMFun) (loads : JsonLoads)
    (original_query : String) : Except PyError PyVal :=
  match llm with
  | Option.none => .error (.attributeError "invoke")
  | some invoke =>
    let generated_text := extract_text (invoke (related_query_prompt original_query))
    let json_str := bracket_slice generated_text
    match loads json_str with
    | some v => .ok v
    | Option.none => .ok (.list [])

/-! ### The comprehension `[q['query'] for q in related_queries_dicts]` -/

/-- Python iteration `for q in v` for the values this code can receive:
lists iterate their elements, strings iterate one-character strings, dicts
iterate their keys; everything else raises `TypeError`. -/
def pyIter : PyVal → Except PyError (List PyVal)
  | .list xs => .ok xs
  | .str s => .ok (s.data.map (fun c => .str (String.singleton c)))
  | .dict kvs => .ok (kvs.map (fun kv => .str kv.1))
  | _ => .error (.typeError "object is not iterable")

/-- Lookup in the insertion-ordered key/value list of a dict. -/
def lookupKey (k : String) : List (String × PyVal) → Option PyVal
  | [] => Option.none
  | (l, v) :: rest => if l = k then some v else lookupKey k rest

/-- Python subscript `v[key]` with a string key: dicts look the key up and
raise `KeyError` when absent; strings and lists want integer indices and
raise `TypeError`; scalars are not subscriptable. -/
def pySubscript (v : PyVal) (key : String) : Except PyError PyVal :=
  match v with
  | .dict kvs =>
      match lookupKey key kvs with
      | some w => .ok w
      | Option.none => .error (.keyError key)
  | .str _ => .error (.typeError "string indices must be integers")
  | .list _ => .error (.typeError "list indices must be integers or slices, not str")
  | _ => .error (.typeError "object is not subscriptable")

/-- Subscript each element in turn, stopping at the first raised error, as a
comprehension does. -/
def map_subscript (key : String) : List PyVal → Except PyError (List PyVal)
  | [] => .ok []
  | q :: rest =>
    match pySubscript q key with
    | .error e => .error e
    | .ok v =>
      match map_subscript key rest with
      | .error e => .error e
      | .ok vs => .ok (v :: vs)

/-- The comprehension `[q['query'] for q in related_queries_dicts]` from
`chat`. -/
def extract_query_values (related_queries_dicts : PyVal) :
    Except PyError (List PyVal) :=
  match pyIter related_queries_dicts with
  | .error e => .error e
  | .ok qs => map_subscript "query" qs

/-! ### The retrieval loop and the instance attribute table -/

/-- One element of `all_results`: the dict
`{'query': query_text, 'answer': response['answer']}`. -/
structure ResultEntry where
  query : PyVal
  answer : String
  deriving Repr, DecidableEq

/-- The attribute names bound on a `ChatWithFile` instance by `__init__`,
`setup_conversation_memory` and `setup_conversation_retrieval_chain`, as a
function of which API keys are configured: `qa` is bound only when the OpenAI
LLM exists and `anthropic_qa` only when the Anthropic LLM exists.  No code
path ever binds a name `qa_anthropic`. -/
def instance_attrs (openai anthropic : Bool) : List String :=
  ["openai_api_key", "anthropic_api_key", "file_path", "file_type",
   "conversation_history", "loader", "pages", "text_splitter", "docs",
   "vectordb", "memory", "llm", "llm_anthropic"]
  ++ (if openai then ["qa"] else [])
  ++ (if anthropic then ["anthropic_qa"] else [])

/-- Python attribute lookup `self.<name>` restricted to whether the name is
bound: an unbound name raises `AttributeError`. -/
def getattr (attrs : List String) (name : String) : Except PyError Unit :=
  if name ∈ attrs then .ok () else .error (.attributeError name)

/-- The external collaborators and credential state of a `ChatWithFile`
instance: the optional OpenAI LLM, whether the Anthropic LLM is set, the two
retrieval chains' `invoke` (returning the `answer` field of a truthy
response dict, or `none` for a falsy one), and `json.loads`. -/
structure ChatConfig where
  llm : Option LLMFun
  anthropic : Bool
  qa_invoke : PyVal → Option String
  anthropic_qa_invoke : PyVal → Option String
  loads : JsonLoads

/-- One iteration of the retrieval loop in `chat`: the backend is picked by
which LLM is set; the Anthropic branch reads `self.qa_anthropic`, and only on
a successful lookup would it invoke the chain bound as `anthropic_qa`.  The
result is the `response` value of the iteration (`none` when it stays falsy). -/
def query_response (cfg : ChatConfig) (query_text : PyVal) :
    Except PyError (Option String) :=
  if cfg.llm.isSome then .ok (cfg.qa_invoke query_text)
  else if cfg.anthropic then
    match getattr (instance_attrs cfg.llm.isSome cfg.anthropic) "qa_anthropic" with
    | .error e => .error e
    | .ok _ => .ok (cfg.anthropic_qa_invoke query_text)
  else .ok Option.none

/-- The retrieval loop of `chat`: query the backend for each query in order,
keep the truthy responses as `{'query': ..., 'answer': ...}` entries and skip
the falsy ones. -/
def gather_results (cfg : ChatConfig) : List PyVal → Except PyError (List ResultEntry)
  | [] => .ok []
  | q :: rest =>
    match query_response cfg q with
    | .error e => .error e
    | .ok response =>
      match gather_results cfg rest with
      | .error e => .error e
      | .ok acc =>
        match response with
        | some a => .ok (⟨q, a⟩ :: acc)
        | Option.none => .ok acc

/-! ### reciprocal_rank_fusion -/

/-- An entry of the `fused_scores` dict: the result dict plus its running
score. -/
structure RRFEntry where
  doc : ResultEntry
  score : Nat
  deriving Repr, DecidableEq

/-- Python `doc_id in fused_scores` over the insertion-ordered key/value
list modelling the dict. -/
def containsKey : List (PyVal × RRFEntry) → PyVal → Bool
  | [], _ => false
  | p :: rest, q => if p.1 = q then true else containsKey rest q

/-- `fused_scores[doc_id]["score"] += 1`. -/
def bumpScore : List (PyVal × RRFEntry) → PyVal → List (PyVal × RRFEntry)
  | [], _ => []
  | p :: rest, q =>
    if p.1 = q then (p.1, ⟨p.2.doc, p.2.score + 1⟩) :: rest
    else p :: bumpScore rest q

/-- The loop of `reciprocal_rank_fusion`: insert each result under its
`query` key with score 0 when absent, then increment that key's score. -/
def rrf_fold : List (PyVal × RRFEntry) → List ResultEntry → List (PyVal × RRFEntry)
  | fused, [] => fused
  | fused, r :: rest =>
    let fused1 := if containsKey fused r.query then fused
                  else fused ++ [(r.query, ⟨r, 0⟩)]
    rrf_fold (bumpScore fused1 r.query) rest

/-- Stable insertion for a descending sort by score: an element is placed
before the first strictly smaller score, after equal ones already placed. -/
def insertDesc (x : RRFEntry) : List RRFEntry → List RRFEntry
  | [] => [x]
  | y :: ys => if y.score ≤ x.score then x :: y :: ys else y :: insertDesc x ys

/-- Python `sorted(..., key=lambda x: x["score"], reverse=True)`: a stable
descending sort. -/
def sortByScoreDesc : List RRFEntry → List RRFEntry
  | [] => []
  | x :: xs => insertDesc x (sortByScoreDesc xs)

/-- `ChatWithFile.reciprocal_rank_fusion`: group by the `query` field,
score each group by counting occurrences, and sort the dict values by score,
descending.  The `k=60` parameter of the source is never read by the body. -/
def reciprocal_rank_fusion (all_results : List ResultEntry) : List RRFEntry :=
  sortByScoreDesc ((rrf_fold [] all_results).map Prod.snd)

/-! ### Synthesis -/

/-- One element of `scored_results`: `{'score': res['score'], **res['doc']}`. -/
structure ScoredResult where
  score : Nat
  query : PyVal
  answer : String
  deriving Repr, DecidableEq

/-- Stable descending insertion for `create_synthesis_prompt`. -/
def insertScoredDesc (x : ScoredResult) : List ScoredResult → List ScoredResult
  | [] => [x]
  | y :: ys => if y.score ≤ x.score then x :: y :: ys else y :: insertScoredDesc x ys

/-- The `sorted(all_results, key=lambda x: x['score'], reverse=True)` of
`create_synthesis_prompt`. -/
def sortScoredDesc : List ScoredResult → List ScoredResult
  | [] => []
  | x :: xs => insertScoredDesc x (sortScoredDesc xs)

/-- The per-answer lines of the synthesis prompt. -/
def answer_lines : Nat → List ScoredResult → String
  | _, [] => ""
  | idx, r :: rest =>
      "Answer " ++ toString (idx + 1) ++ " (Score: " ++ toString r.score ++ "): " ++
      r.answer ++ "\n\n" ++ answer_lines (idx + 1) rest

/-- `ChatWithFile.create_synthesis_prompt`. -/
def create_synthesis_prompt (original_question : String)
    (all_results : List ScoredResult) : String :=
  "Based on the user" ++ sq ++ "s original question: " ++ sq ++ original_question ++ sq ++
  ", here are the answers to the original and related questions, ordered by their relevance (with RRF scores). Please synthesize a comprehensive answer focusing on answering the original question using all the information provided below:\n\n" ++
  answer_lines 0 (sortScoredDesc all_results) ++
  "Given the above answers, especially considering those with higher scores, please provide the best possible composite answer to the user" ++ sq ++ "s original question."

/-- `synthesized_response.content`: only a message object carries the
`content` attribute; a dict or plain string raises `AttributeError`. -/
def response_content : LLMResponse → Except PyError String
  | .withContent c => .ok c
  | _ => .error (.attributeError "content")

/-- `ChatWithFile.chat`, composed from the pieces above.  The function takes
and returns `conversation_history` explicitly; the `st.write` UI calls are
omitted (they change no state the claims mention).  An uncaught Python
exception is `Except.error`; a normal return pairs the new history with the
returned `answer` string. -/
def chat (cfg : ChatConfig) (history : List Msg) (question : String) :
    Except PyError (List Msg × String) :=
  match generate_related_queries cfg.llm cfg.loads question with
  | .error e => .error e
  | .ok related_queries_dicts =>
  match extract_query_values related_queries_dicts with
  | .error e => .error e
  | .ok related_queries =>
  match gather_results cfg (PyVal.str question :: related_queries) with
  | .error e => .error e
  | .ok all_results =>
  match all_results with
  | [] =>
      .ok (history ++ [Msg.human question, Msg.ai "No answer available."],
           "No results were available to synthesize a response.")
  | _ :: _ =>
      let reranked_results := reciprocal_rank_fusion all_results
      let scored_results := reranked_results.map
        (fun r => (⟨r.score, r.doc.query, r.doc.answer⟩ : ScoredResult))
      let synthesis_prompt := create_synthesis_prompt question scored_results
      match cfg.llm with
      | Option.none => .error (.attributeError "invoke")
      | some invoke =>
        match invoke synthesis_prompt with
        | Option.none =>
            .ok (history ++ [Msg.human question, Msg.ai "Unable to synthesize a response."],
                 "Unable to synthesize a response.")
        | some resp =>
            match response_content resp with
            | .error e => .error e
            | .ok final_answer =>
                .ok (history ++ [Msg.human question, Msg.ai final_answer], final_answer)

/-- Run a sequence of completed `chat` calls, threading the history through;
`none` when some call raises. -/
def run_chats (cfg : ChatConfig) : List String → List Msg → Option (List Msg)
  | [], history => some history
  | q :: qs, history =>
    match chat cfg history q with
    | .ok r => run_chats cfg qs r.1
    | .error _ => Option.none

/-- The history shape required by the invariant: a sequence of human/AI
pairs, starting with a human turn. -/
def alternatesHA : List Msg → Bool
  | [] => true
  | Msg.human _ :: Msg.ai _ :: rest => alternatesHA rest
  | _ => false

/-! ### The upload handler -/

/-- The session-state keys the upload page can change. -/
structure SessionState where
  file_path : Option String
  file_type : Option String
  page : Nat
  deriving Repr, DecidableEq

/-- Observable effects of the upload handler. -/
inductive UploadEffect where
  | wroteFile (path : String)
  | successMsg (msg : String)
  | errorShown (msg : String)
  | proceedButton
  deriving Repr, DecidableEq

/-- The extension dispatch chain of `upload_and_handle_file`; `none` is the
`file_type = None` fallback for an unexpected extension. -/
def detect_file_type (name : String) : Option String :=
  if pyEndsWith name ".csv" then some "csv"
  else if pyEndsWith name ".pdf" then some "pdf"
  else if pyEndsWith name ".txt" then some "txt"
  else if pyEndsWith name ".pptx" then some "pptx"
  else if pyEndsWith name ".docx" then some "docx"
  else if pyEndsWith name ".xlsx" then some "xlsx"
  else Option.none

/-- `upload_and_handle_file` with a file present: detect the type; on
success, write the bytes under `temp/` and record path and type in the
session state; for an unexpected extension, show an error and change
nothing.  The `page` key is only updated by the button callback when the
button is clicked, never during the upload itself. -/
def upload_and_handle_file (name : String) (st : SessionState) :
    SessionState × List UploadEffect :=
  match detect_file_type name with
  | some ft =>
      let path := "temp/" ++ name
      (⟨some path, some ft, st.page⟩,
       [UploadEffect.wroteFile path,
        UploadEffect.successMsg (String.map Char.toUpper ft ++ " file uploaded successfully."),
        UploadEffect.proceedButton])
  | Option.none =>
      (st, [UploadEffect.errorShown
        "Unsupported file type. Please upload a XLSX, PPTX, DOCX, PDF, CSV, or TXT file."])

/-! ### Concrete configurations used to evaluate the model -/

/-- A session with neither `OPENAI_API_KEY` nor `ANTHROPIC_API_KEY`. -/
def noCredCfg : ChatConfig :=
  ⟨Option.none, false, fun _ => Option.none, fun _ => Option.none, fun _ => Option.none⟩

/-- A session with only the Anthropic credential configured. -/
def anthOnlyCfg : ChatConfig :=
  ⟨Option.none, true, fun _ => Option.none, fun _ => some "anthropic answer",
   fun _ => Option.none⟩

/-- An OpenAI session whose LLM responses carry no JSON and whose retrieval
chain answers every query. -/
def demoCfg : ChatConfig :=
  ⟨some (fun _ => some (.withContent "synthesis text")), false,
   fun _ => some "the answer", fun _ => Option.none, fun _ => Option.none⟩

/-- An OpenAI session whose retrieval chain yields a falsy response for
every query, driving `chat` into its no-results branch. -/
def noResCfg : ChatConfig :=
  ⟨some (fun _ => some (.withContent "[]")), false,
   fun _ => Option.none, fun _ => Option.none, fun _ => Option.none⟩

/-- An OpenAI session whose query-expansion response parses to a JSON array
of plain strings instead of objects. -/
def strListCfg : ChatConfig :=
  ⟨some (fun _ => some (.withContent "[\"a\"]")), false,
   fun _ => some "the answer", fun _ => Option.none,
   fun s => if s = "[\"a\"]" then some (.list [.str "a"]) else Option.none⟩

/-! ## Theorems -/

/-- Counterexample to the claim that a credential-less session degrades
gracefully: with `self.llm` and `self.llm_anthropic` both `None`,
`chat("What is in the file")` raises `AttributeError` inside
`generate_related_queries` (line 154 invokes `self.llm`, which is `None`)
instead of returning the fallback string, and no turns are appended. -/
theorem chat_no_backend_counterexample :
    chat noCredCfg [] "What is in the file" =
      Except.error (PyError.attributeError "invoke") ∧
    chat noCredCfg [] "What is in the file" ≠
      Except.ok ([Msg.human "What is in the file", Msg.ai "No answer available."],
        "No results were available to synthesize a response.") := by
  exact ⟨rfl, by decide⟩

/-- Claim C1 (amended): for a session with no LLM credentials configured
(`self.llm = None`), any `chat(question)` call raises `AttributeError` in
`generate_related_queries` before reaching the fallback or touching the
conversation history; the literal fallback string is never returned. -/
theorem chat_no_backend_raises (cfg : ChatConfig) (history : List Msg)
    (question : String) (hllm : cfg.llm = Option.none) :
    chat cfg history question = Except.error (PyError.attributeError "invoke") := by
  simp [chat, generate_related_queries, hllm]

/-- Witness: the amended C1 theorem applies to the concrete credential-less
configuration. -/
theorem chat_no_backend_raises_witness :
    chat noCredCfg [] "hello" = Except.error (PyError.attributeError "invoke") :=
  chat_no_backend_raises noCredCfg [] "hello" rfl

/-- Claim C4: `setup_conversation_retrieval_chain` binds `anthropic_qa`, but
the Anthropic branch of `chat` reads `self.qa_anthropic`, a name no code path
ever binds; so the lookup raises `AttributeError` for every credential
combination, and with only the Anthropic credential configured the per-query
branch can never produce a retrieval response. -/
theorem qa_anthropic_never_bound :
    (∀ openai anthropic : Bool,
        getattr (instance_attrs openai anthropic) "qa_anthropic" =
          Except.error (PyError.attributeError "qa_anthropic")) ∧
    (∀ (cfg : ChatConfig) (q : PyVal), cfg.llm = Option.none →
        cfg.anthropic = true →
        query_response cfg q = Except.error (PyError.attributeError "qa_anthropic")) := by
  constructor
  · intro o a
    cases o <;> cases a <;> decide
  · intro cfg q hllm hanth
    simp only [query_response, hllm, hanth]
    rfl

/-- Witness: the C4 theorem applies to an Anthropic-only configuration and
to each concrete credential combination. -/
theorem qa_anthropic_never_bound_witness :
    getattr (instance_attrs false true) "qa_anthropic" =
      Except.error (PyError.attributeError "qa_anthropic") ∧
    query_response anthOnlyCfg (PyVal.str "a question") =
      Except.error (PyError.attributeError "qa_anthropic") :=
  ⟨qa_anthropic_never_bound.1 false true,
   qa_anthropic_never_bound.2 anthOnlyCfg (PyVal.str "a question") rfl rfl⟩

/-- Claim C6: upload of a file whose name matches none of the six supported
extensions surfaces an error, writes nothing under `temp/`, and leaves the
session state (file_path, file_type, page) unchanged. -/
theorem upload_unsupported_frame (name : String) (st : SessionState)
    (h1 : pyEndsWith name ".csv" = false) (h2 : pyEndsWith name ".pdf" = false)
    (h3 : pyEndsWith name ".txt" = false) (h4 : pyEndsWith name ".pptx" = false)
    (h5 : pyEndsWith name ".docx" = false) (h6 : pyEndsWith name ".xlsx" = false) :
    (upload_and_handle_file name st).1 = st ∧
    (∀ p, UploadEffect.wroteFile p ∉ (upload_and_handle_file name st).2) ∧
    UploadEffect.errorShown
        "Unsupported file type. Please upload a XLSX, PPTX, DOCX, PDF, CSV, or TXT file."
      ∈ (upload_and_handle_file name st).2 := by
  have hd : detect_file_type name = Option.none := by
    simp [detect_file_type, h1, h2, h3, h4, h5, h6]
  refine ⟨?_, ?_, ?_⟩ <;> simp [upload_and_handle_file, hd]

/-- Witness: the C6 theorem applies to an uploaded `img.png`. -/
theorem upload_unsupported_frame_witness :
    (upload_and_handle_file "img.png" ⟨Option.none, Option.none, 1⟩).1 =
      ⟨Option.none, Option.none, 1⟩ ∧
    UploadEffect.wroteFile "temp/img.png" ∉
      (upload_and_handle_file "img.png" ⟨Option.none, Option.none, 1⟩).2 ∧
    UploadEffect.errorShown
        "Unsupported file type. Please upload a XLSX, PPTX, DOCX, PDF, CSV, or TXT file."
      ∈ (upload_and_handle_file "img.png" ⟨Option.none, Option.none, 1⟩).2 := by
  have h := upload_unsupported_frame "img.png" ⟨Option.none, Option.none, 1⟩
    (by decide) (by decide) (by decide) (by decide) (by decide) (by decide)
  exact ⟨h.1, h.2.1 "temp/img.png", h.2.2⟩

/-- Counterexample to "metadata is string-valued only": an integer metadata
value (`{'page': 3}`) survives the simplification step unchanged, so not
every metadata value is a string afterwards. -/
theorem simplify_metadata_counterexample :
    metadataAllStrings (simplify_metadata [("page", PyVal.int 3)]) = false := by
  decide

/-- Claim C7 (amended): after the simplification step no metadata value is a
list or dict; the keys and their order are preserved, every list- or
dict-valued entry is replaced by its Python string form, and every other
(scalar) entry is left unchanged — scalars are not converted to strings. -/
theorem simplify_metadata_amended (metadata : List (String × PyVal)) :
    (∀ p ∈ simplify_metadata metadata, isListOrDict p.2 = false) ∧
    List.Forall₂ (fun a b : String × PyVal =>
        b.1 = a.1 ∧
        ((isListOrDict a.2 = true ∧ b.2 = PyVal.str (pyRepr a.2)) ∨
         (isListOrDict a.2 = false ∧ b.2 = a.2)))
      metadata (simplify_metadata metadata) := by
  constructor
  · intro p hp
    simp only [simplify_metadata, List.mem_map] at hp
    obtain ⟨kv, _, heq⟩ := hp
    by_cases h : isListOrDict kv.2 = true
    · rw [if_pos h] at heq
      rw [← heq]
      rfl
    · rw [if_neg h] at heq
      rw [← heq]
      exact Bool.eq_false_iff.mpr h
  · induction metadata with
    | nil => exact List.Forall₂.nil
    | cons kv rest ih =>
        refine List.Forall₂.cons ?_ ih
        by_cases h : isListOrDict kv.2 = true
        · simp [simplify_metadata, h]
        · simp [simplify_metadata, h]

theorem containsKey_eq_false_of (fused : List (PyVal × RRFEntry)) (q : PyVal)
    (h : ∀ p ∈ fused, p.1 ≠ q) : containsKey fused q = false := by
  induction fused with
  | nil => rfl
  | cons p rest ih =>
      simp only [containsKey]
      rw [if_neg (h p (by simp))]
      exact ih (fun p' hp' => h p' (by simp [hp']))

theorem bumpScore_append (l : List (PyVal × RRFEntry)) (q : PyVal) (e : RRFEntry)
    (h : ∀ p ∈ l, p.1 ≠ q) :
    bumpScore (l ++ [(q, e)]) q = l ++ [(q, ⟨e.doc, e.score + 1⟩)] := by
  induction l with
  | nil => simp [bumpScore]
  | cons p rest ih =>
      simp only [List.cons_append, bumpScore]
      rw [if_neg (h p (by simp))]
      exact congrArg (p :: ·) (ih (fun p' hp' => h p' (by simp [hp'])))

theorem rrf_fold_nodup : ∀ (rs : List ResultEntry) (fused : List (PyVal × RRFEntry)),
    (∀ p ∈ fused, p.1 ∉ rs.map ResultEntry.query) →
    (rs.map ResultEntry.query).Nodup →
    rrf_fold fused rs = fused ++ rs.map (fun r => (r.query, (⟨r, 1⟩ : RRFEntry)))
  | [], fused, _, _ => by simp [rrf_fold]
  | r :: rest, fused, hdisj, hnd => by
      have hq : ∀ p ∈ fused, p.1 ≠ r.query := by
        intro p hp he
        exact hdisj p hp (by simp [he])
      have hck : containsKey fused r.query = false := containsKey_eq_false_of _ _ hq
      simp only [List.map_cons] at hdisj hnd
      have hnd' := List.nodup_cons.mp hnd
      simp only [rrf_fold, hck, Bool.false_eq_true, if_false]
      rw [bumpScore_append fused r.query ⟨r, 0⟩ hq]
      show rrf_fold (fused ++ [(r.query, ⟨r, 1⟩)]) rest =
        fused ++ (r.query, (⟨r, 1⟩ : RRFEntry)) ::
          rest.map (fun r => (r.query, (⟨r, 1⟩ : RRFEntry)))
      rw [rrf_fold_nodup rest (fused ++ [(r.query, (⟨r, 1⟩ : RRFEntry))]) ?_ hnd'.2]
      · simp
      · intro p hp
        rcases List.mem_append.mp hp with hl | hr
        · intro hmem
          exact hdisj p hl (by simp [hmem])
        · simp at hr
          rw [hr]
          exact hnd'.1

theorem insertDesc_of_le (x : RRFEntry) (l : List RRFEntry)
    (h : ∀ y ∈ l, y.score ≤ x.score) : insertDesc x l = x :: l := by
  cases l with
  | nil => rfl
  | cons y ys => simp [insertDesc, h y (by simp)]

theorem sortByScoreDesc_const : ∀ (l : List RRFEntry), (∀ e ∈ l, e.score = 1) →
    sortByScoreDesc l = l
  | [], _ => rfl
  | x :: xs, h => by
      simp only [sortByScoreDesc]
      rw [sortByScoreDesc_const xs (fun e he => h e (by simp [he]))]
      exact insertDesc_of_le x xs (fun y hy => by rw [h y (by simp [hy]), h x (by simp)])

theorem rrf_nodup_eq (rs : List ResultEntry) (hnd : (rs.map ResultEntry.query).Nodup) :
    reciprocal_rank_fusion rs = rs.map (fun r => (⟨r, 1⟩ : RRFEntry)) := by
  unfold reciprocal_rank_fusion
  rw [rrf_fold_nodup rs [] (by simp) hnd]
  rw [List.nil_append, List.map_map]
  rw [sortByScoreDesc_const]
  · rfl
  · intro e he
    simp only [List.mem_map] at he
    obtain ⟨r, _, rfl⟩ := he
    rfl

/-- Claim C2: with pairwise distinct `query` fields (each query one result),
`reciprocal_rank_fusion` gives every output entry the fused score 1, so no
result is differentiated from any other. -/
theorem rrf_all_scores_one (rs : List ResultEntry) (_hne : rs ≠ [])
    (hnd : (rs.map ResultEntry.query).Nodup) :
    ∀ e ∈ reciprocal_rank_fusion rs, e.score = 1 := by
  intro e he
  rw [rrf_nodup_eq rs hnd] at he
  simp only [List.mem_map] at he
  obtain ⟨r, _, rfl⟩ := he
  rfl

/-- Witness: the C2 theorem applied to two distinct single-result queries. -/
theorem rrf_all_scores_one_witness :
    ([(⟨PyVal.str "q1", "a1"⟩ : ResultEntry), ⟨PyVal.str "q2", "a2"⟩] ≠ []) ∧
    ([(⟨PyVal.str "q1", "a1"⟩ : ResultEntry), ⟨PyVal.str "q2", "a2"⟩].map
        ResultEntry.query).Nodup ∧
    (⟨⟨PyVal.str "q1", "a1"⟩, 1⟩ : RRFEntry).score = 1 :=
  ⟨by decide, by decide,
   rrf_all_scores_one [⟨PyVal.str "q1", "a1"⟩, ⟨PyVal.str "q2", "a2"⟩]
     (by decide) (by decide) ⟨⟨PyVal.str "q1", "a1"⟩, 1⟩ (by decide)⟩

/-- Claim C10: on pairwise distinct `query` fields the fusion is the
identity up to scoring — same length, same relative order (insertion-ordered
dict plus a stable sort over all-equal scores) — and hence in `chat`, when
the original question's retrieval produced a (truthy) response, that
result sits first in the reranked list. -/
theorem rrf_order_and_first :
    (∀ (rs : List ResultEntry), (rs.map ResultEntry.query).Nodup →
        reciprocal_rank_fusion rs = rs.map (fun r => (⟨r, 1⟩ : RRFEntry)) ∧
        (reciprocal_rank_fusion rs).length = rs.length ∧
        (reciprocal_rank_fusion rs).map RRFEntry.doc = rs) ∧
    (∀ (cfg : ChatConfig) (question a : String) (related : List PyVal)
        (results : List ResultEntry),
        cfg.llm.isSome = true →
        cfg.qa_invoke (PyVal.str question) = some a →
        gather_results cfg (PyVal.str question :: related) = Except.ok results →
        (results.map ResultEntry.query).Nodup →
        (reciprocal_rank_fusion results).head? = some ⟨⟨PyVal.str question, a⟩, 1⟩) := by
  constructor
  · intro rs hnd
    refine ⟨rrf_nodup_eq rs hnd, ?_, ?_⟩
    · rw [rrf_nodup_eq rs hnd, List.length_map]
    · rw [rrf_nodup_eq rs hnd, List.map_map]
      have hco : (RRFEntry.doc ∘ fun r => (⟨r, 1⟩ : RRFEntry)) = id := rfl
      rw [hco, List.map_id]
  · intro cfg question a related results hllm hqa hg hnd
    simp only [gather_results, query_response, hllm, if_true, hqa] at hg
    cases hrest : gather_results cfg related with
    | error e =>
        rw [hrest] at hg
        exact absurd hg (by simp)
    | ok acc =>
        rw [hrest] at hg
        cases hg
        rw [rrf_nodup_eq _ hnd]
        rfl

/-- Witness: the C10 theorem applied to a singleton result list and to a
concrete chat configuration answering the original question. -/
theorem rrf_order_and_first_witness :
    reciprocal_rank_fusion [(⟨PyVal.str "hi", "the answer"⟩ : ResultEntry)] =
      [⟨⟨PyVal.str "hi", "the answer"⟩, 1⟩] ∧
    (reciprocal_rank_fusion [(⟨PyVal.str "hi", "the answer"⟩ : ResultEntry)]).head? =
      some ⟨⟨PyVal.str "hi", "the answer"⟩, 1⟩ :=
  ⟨(rrf_order_and_first.1 [⟨PyVal.str "hi", "the answer"⟩] (by decide)).1,
   rrf_order_and_first.2 demoCfg "hi" "the answer" []
     [⟨PyVal.str "hi", "the answer"⟩] rfl rfl rfl (by decide)⟩

theorem pyRFindAux_of_not_mem (c : Char) : ∀ (cs : List Char) (i acc : Int),
    c ∉ cs → pyRFindAux c cs i acc = acc
  | [], _, _, _ => rfl
  | x :: xs, i, acc, h => by
      have hx : ¬(x = c) := fun he => h (by simp [he])
      simp only [pyRFindAux, if_neg hx]
      exact pyRFindAux_of_not_mem c xs (i + 1) acc (fun hm => h (List.mem_cons_of_mem _ hm))

theorem pySlice_stop_zero (s : String) (start : Int) : pySlice s start 0 = "" := by
  unfold pySlice
  have h0 : ¬((0 : Int) < 0) := by omega
  simp only [h0, if_false]
  have hb : (min (0 : Int) ((s.data.length : Nat) : Int)).toNat = 0 :=
    Int.toNat_eq_zero.mpr (min_le_left _ _)
  rw [hb]
  simp

theorem pyFindAux_prepend (c : Char) : ∀ (pre rest : List Char) (i : Int),
    c ∉ pre → pyFindAux c (pre ++ c :: rest) i = i + pre.length
  | [], rest, i, _ => by simp [pyFindAux]
  | x :: pre, rest, i, h => by
      have hx : ¬(x = c) := fun he => h (by simp [he])
      simp only [List.cons_append, pyFindAux, if_neg hx, List.append_eq]
      rw [pyFindAux_prepend c pre rest (i + 1) (fun hm => h (List.mem_cons_of_mem _ hm))]
      simp only [List.length_cons]
      push_cast
      ring

theorem pyRFindAux_last (c : Char) : ∀ (l1 l2 : List Char) (i acc : Int),
    c ∉ l2 → pyRFindAux c (l1 ++ c :: l2) i acc = i + l1.length
  | [], l2, i, acc, h => by
      show pyRFindAux c l2 (i + 1) (if c = c then i else acc) = i + (([] : List Char).length : Int)
      rw [if_pos rfl]
      rw [pyRFindAux_of_not_mem c l2 (i + 1) i h]
      simp
  | x :: l1, l2, i, acc, h => by
      show pyRFindAux c (l1 ++ c :: l2) (i + 1) (if x = c then i else acc) =
        i + ((x :: l1).length : Int)
      rw [pyRFindAux_last c l1 l2 (i + 1) (if x = c then i else acc) h]
      simp only [List.length_cons]
      push_cast
      ring

theorem bracket_slice_no_rbracket (t : String) (h : ']' ∉ t.data) :
    bracket_slice t = "" := by
  unfold bracket_slice pyRFind
  rw [pyRFindAux_of_not_mem ']' t.data 0 (-1) h]
  show pySlice t (pyFind t '[') (-1 + 1) = ""
  have : (-1 : Int) + 1 = 0 := by omega
  rw [this]
  exact pySlice_stop_zero t _

theorem bracket_slice_split (pre mid post : List Char)
    (hpre : '[' ∉ pre) (hpost : ']' ∉ post) :
    bracket_slice (String.mk (pre ++ '[' :: (mid ++ ']' :: post))) =
      String.mk ('[' :: (mid ++ [']'])) := by
  have hfind : pyFind (String.mk (pre ++ '[' :: (mid ++ ']' :: post))) '[' =
      (pre.length : Int) := by
    show pyFindAux '[' (pre ++ '[' :: (mid ++ ']' :: post)) 0 = (pre.length : Int)
    rw [pyFindAux_prepend '[' pre _ 0 hpre]
    ring
  have hsplit : pre ++ '[' :: (mid ++ ']' :: post) =
      (pre ++ '[' :: mid) ++ ']' :: post := by simp
  have hrfind : pyRFind (String.mk (pre ++ '[' :: (mid ++ ']' :: post))) ']' =
      ((pre.length : Int) + mid.length + 1) := by
    show pyRFindAux ']' (pre ++ '[' :: (mid ++ ']' :: post)) 0 (-1) = _
    rw [hsplit, pyRFindAux_last ']' (pre ++ '[' :: mid) post 0 (-1) hpost]
    simp only [List.length_append, List.length_cons]
    push_cast
    ring
  unfold bracket_slice
  rw [hfind, hrfind]
  unfold pySlice
  have hn : ((String.mk (pre ++ '[' :: (mid ++ ']' :: post))).data.length : Int) =
      (pre.length : Int) + mid.length + post.length + 2 := by
    simp only [List.length_append, List.length_cons]
    push_cast
    ring
  rw [hn]
  have hnneg : ¬((pre.length : Int) < 0) := by omega
  have hnneg2 : ¬((pre.length : Int) + mid.length + 1 + 1 < 0) := by omega
  simp only [hnneg, hnneg2, if_false]
  have ha : (min ((pre.length : Int))
      ((pre.length : Int) + mid.length + post.length + 2)).toNat = pre.length := by
    omega
  have hb : (min ((pre.length : Int) + mid.length + 1 + 1)
      ((pre.length : Int) + mid.length + post.length + 2)).toNat =
      pre.length + mid.length + 2 := by
    omega
  rw [ha, hb]
  congr 1
  have hdrop : (pre ++ '[' :: (mid ++ ']' :: post)).drop pre.length =
      '[' :: (mid ++ ']' :: post) := List.drop_left pre _
  have hlen : pre.length + mid.length + 2 - pre.length = mid.length + 2 := by omega
  rw [hdrop, hlen]
  show ('[' :: (mid ++ ']' :: post)).take (mid.length + 2) = '[' :: (mid ++ [']'])
  rw [List.take_cons (by omega)]
  congr 1
  have h21 : mid.length + 2 - 1 = (mid ++ [']']).length := by simp
  rw [h21, show mid ++ ']' :: post = (mid ++ [']']) ++ post by simp]
  exact List.take_left _ _

/-- Claim C5: `generate_related_queries` JSON-parses exactly the slice of the
raw response text from the first `[` to the last `]` inclusive; a successful
parse of an array is returned as-is (elements in order), any parse failure is
swallowed into the empty list (never an error), and a response with no `]`
slices to the empty string, which no JSON parse accepts. -/
theorem generate_related_queries_parse (f : LLMFun) (loads : JsonLoads) (q : String) :
    (∀ es : List PyVal,
        loads (bracket_slice (extract_text (f (related_query_prompt q)))) =
          some (PyVal.list es) →
        generate_related_queries (some f) loads q = Except.ok (PyVal.list es)) ∧
    (loads (bracket_slice (extract_text (f (related_query_prompt q)))) = Option.none →
        generate_related_queries (some f) loads q = Except.ok (PyVal.list [])) ∧
    (∀ t : String, ']' ∉ t.data → bracket_slice t = "") ∧
    (∀ pre mid post : List Char, '[' ∉ pre → ']' ∉ post →
        bracket_slice (String.mk (pre ++ '[' :: (mid ++ ']' :: post))) =
          String.mk ('[' :: (mid ++ [']']))) := by
  refine ⟨?_, ?_, fun t => bracket_slice_no_rbracket t, fun a b c => bracket_slice_split a b c⟩
  · intro es h
    simp [generate_related_queries, h]
  · intro h
    simp [generate_related_queries, h]

/-- Witness: the C5 theorem applied to a concrete LLM response `"[]"` with a
JSON parser accepting exactly `"[]"`, to the bracket-free response text
`"no json"`, and to a concrete split at the first and last brackets. -/
theorem generate_related_queries_parse_witness :
    generate_related_queries (some (fun _ => some (LLMResponse.withContent "[]")))
        (fun s => if s = "[]" then some (PyVal.list []) else Option.none) "hi" =
      Except.ok (PyVal.list []) ∧
    bracket_slice "no json" = "" ∧
    bracket_slice (String.mk (['x'] ++ '[' :: (['1'] ++ ']' :: ['y']))) =
      String.mk ('[' :: (['1'] ++ [']'])) := by
  refine ⟨(generate_related_queries_parse (fun _ => some (LLMResponse.withContent "[]"))
      (fun s => if s = "[]" then some (PyVal.list []) else Option.none) "hi").1 []
      (by decide), ?_, ?_⟩
  · exact (generate_related_queries_parse (fun _ => Option.none)
      (fun _ => Option.none) "hi").2.2.1 "no json" (by decide)
  · exact (generate_related_queries_parse (fun _ => Option.none)
      (fun _ => Option.none) "hi").2.2.2 ['x'] ['1'] ['y'] (by decide) (by decide)

theorem chat_ok_shape (cfg : ChatConfig) (h : List Msg) (q : String)
    (r : List Msg × String) (hr : chat cfg h q = Except.ok r) :
    ∃ a, r.1 = h ++ [Msg.human q, Msg.ai a] := by
  unfold chat at hr
  repeat' first
    | (split at hr)
    | (simp only [] at hr)
  all_goals cases hr
  all_goals exact ⟨_, rfl⟩

theorem alternates_append_pair : ∀ (h : List Msg) (q a : String),
    alternatesHA h = true → alternatesHA (h ++ [Msg.human q, Msg.ai a]) = true
  | [], q, a, _ => by simp [alternatesHA]
  | Msg.human c :: Msg.ai d :: rest, q, a, hh => by
      have := alternates_append_pair rest q a (by simpa [alternatesHA] using hh)
      simpa [alternatesHA] using this
  | [Msg.human c], q, a, hh => by simp [alternatesHA] at hh
  | Msg.human c :: Msg.human d :: rest, q, a, hh => by simp [alternatesHA] at hh
  | Msg.ai c :: rest, q, a, hh => by simp [alternatesHA] at hh

theorem run_chats_shape (cfg : ChatConfig) : ∀ (qs : List String) (h h' : List Msg),
    run_chats cfg qs h = some h' →
    h'.length = h.length + 2 * qs.length ∧
    (alternatesHA h = true → alternatesHA h' = true)
  | [], h, h', hr => by
      simp only [run_chats, Option.some.injEq] at hr
      subst hr
      exact ⟨by simp, fun x => x⟩
  | q :: qs, h, h', hr => by
      simp only [run_chats] at hr
      cases hc : chat cfg h q with
      | error e => rw [hc] at hr; cases hr
      | ok r =>
          rw [hc] at hr
          obtain ⟨a, ha⟩ := chat_ok_shape cfg h q r hc
          have ih := run_chats_shape cfg qs r.1 h' hr
          constructor
          · rw [ih.1, ha]
            simp only [List.length_append, List.length_cons, List.length_nil,
              List.length_cons]
            omega
          · intro halt
            exact ih.2 (by rw [ha]; exact alternates_append_pair h q a halt)

/-- Claim C3: every completed `chat` call appends exactly one human turn and
then one AI turn to the conversation history, on the fusion path as well as
on the no-results path, without touching earlier entries; hence after N
completed calls the history has length 2N and strictly alternates
human/AI starting with human. -/
theorem conversation_history_invariant :
    (∀ (cfg : ChatConfig) (history : List Msg) (question : String)
        (r : List Msg × String), chat cfg history question = Except.ok r →
        ∃ a, r.1 = history ++ [Msg.human question, Msg.ai a]) ∧
    (∀ (cfg : ChatConfig) (questions : List String) (final : List Msg),
        run_chats cfg questions [] = some final →
        final.length = 2 * questions.length ∧ alternatesHA final = true) := by
  constructor
  · exact chat_ok_shape
  · intro cfg qs final hr
    have h := run_chats_shape cfg qs [] final hr
    exact ⟨by simpa using h.1, h.2 rfl⟩

/-- Witness: the C3 theorem applied to one and to two completed chats of a
concrete configuration. -/
theorem conversation_history_invariant_witness :
    (∃ a, ([Msg.human "a", Msg.ai "synthesis text"] : List Msg) =
        [] ++ [Msg.human "a", Msg.ai a]) ∧
    ([Msg.human "a", Msg.ai "synthesis text", Msg.human "b", Msg.ai "synthesis text"] :
        List Msg).length = 2 * 2 ∧
    alternatesHA [Msg.human "a", Msg.ai "synthesis text", Msg.human "b",
        Msg.ai "synthesis text"] = true :=
  ⟨conversation_history_invariant.1 demoCfg [] "a"
      ([Msg.human "a", Msg.ai "synthesis text"], "synthesis text") (by rfl),
   conversation_history_invariant.2 demoCfg ["a", "b"]
      [Msg.human "a", Msg.ai "synthesis text", Msg.human "b", Msg.ai "synthesis text"]
      (by rfl)⟩

/-- Claim C8: on the no-results branch the string returned to the caller and
the AI turn appended to the history disagree: the caller sees "No results
were available to synthesize a response." while the history records "No
answer available.". -/
theorem chat_no_results_mismatch (cfg : ChatConfig) (history : List Msg) (q : String)
    (rqd : PyVal) (related : List PyVal)
    (hgen : generate_related_queries cfg.llm cfg.loads q = Except.ok rqd)
    (hcompr : extract_query_values rqd = Except.ok related)
    (hqa : ∀ v, cfg.qa_invoke v = Option.none) :
    chat cfg history q =
      Except.ok (history ++ [Msg.human q, Msg.ai "No answer available."],
        "No results were available to synthesize a response.") ∧
    "No answer available." ≠ "No results were available to synthesize a response." := by
  constructor
  · have hllm : cfg.llm.isSome = true := by
      cases hl : cfg.llm
      · rw [hl] at hgen
        exact absurd hgen (by simp [generate_related_queries])
      · rfl
    have hg : ∀ qs : List PyVal, gather_results cfg qs = Except.ok [] := by
      intro qs
      induction qs with
      | nil => rfl
      | cons x xs ih => simp [gather_results, query_response, hllm, hqa, ih]
    simp only [chat, hgen, hcompr, hg]
  · decide

/-- Witness: the C8 theorem applied to a concrete all-falsy retrieval
configuration. -/
theorem chat_no_results_mismatch_witness :
    chat noResCfg [] "hi" =
      Except.ok ([Msg.human "hi", Msg.ai "No answer available."],
        "No results were available to synthesize a response.") :=
  (chat_no_results_mismatch noResCfg [] "hi" (PyVal.list []) []
    (by rfl) (by rfl) (fun _ => rfl)).1

theorem map_subscript_ok_iff : ∀ es : List PyVal,
    (∃ qs, map_subscript "query" es = Except.ok qs) ↔
    (∀ v ∈ es, ∃ kvs, v = PyVal.dict kvs ∧ (lookupKey "query" kvs).isSome = true)
  | [] => by simp [map_subscript]
  | v :: es => by
      constructor
      · rintro ⟨qs, hqs⟩
        simp only [map_subscript] at hqs
        cases hs : pySubscript v "query" with
        | error e => rw [hs] at hqs; exact absurd hqs (by simp)
        | ok w =>
            rw [hs] at hqs
            cases hrest : map_subscript "query" es with
            | error e => rw [hrest] at hqs; exact absurd hqs (by simp)
            | ok ws =>
                intro u hu
                rcases List.mem_cons.mp hu with rfl | hmem
                · cases u with
                  | dict kvs =>
                      refine ⟨kvs, rfl, ?_⟩
                      cases hlk : lookupKey "query" kvs with
                      | none => rw [pySubscript, hlk] at hs; exact absurd hs (by simp)
                      | some w' => rfl
                  | none => exact absurd hs (by simp [pySubscript])
                  | bool b => exact absurd hs (by simp [pySubscript])
                  | int n => exact absurd hs (by simp [pySubscript])
                  | str s => exact absurd hs (by simp [pySubscript])
                  | list xs => exact absurd hs (by simp [pySubscript])
                · exact (map_subscript_ok_iff es).mp ⟨ws, hrest⟩ u hmem
      · intro hall
        obtain ⟨kvs, hv, hk⟩ := hall v (by simp)
        obtain ⟨w, hw⟩ := Option.isSome_iff_exists.mp hk
        obtain ⟨ws, hws⟩ := (map_subscript_ok_iff es).mpr (fun u hu => hall u (by simp [hu]))
        subst hv
        exact ⟨w :: ws, by simp [map_subscript, pySubscript, hw, hws]⟩

/-- Claim C9: when the parsed related-queries JSON array consists of plain
strings (the very shape the expansion prompt requests), `chat` raises
`TypeError` at the comprehension `[q['query'] for q in related_queries_dicts]`
instead of degrading; the comprehension succeeds exactly when every parsed
element is a dict containing the key `query`. -/
theorem related_query_shape_safety :
    (∀ (cfg : ChatConfig) (history : List Msg) (q : String) (f : LLMFun)
        (es : List PyVal),
        cfg.llm = some f →
        cfg.loads (bracket_slice (extract_text (f (related_query_prompt q)))) =
          some (PyVal.list es) →
        es ≠ [] → (∀ v ∈ es, isStr v = true) →
        chat cfg history q =
          Except.error (PyError.typeError "string indices must be integers")) ∧
    (∀ es : List PyVal,
        (∃ qs, extract_query_values (PyVal.list es) = Except.ok qs) ↔
        (∀ v ∈ es, ∃ kvs, v = PyVal.dict kvs ∧ (lookupKey "query" kvs).isSome = true)) := by
  constructor
  · intro cfg history q f es hllm hloads hne hstr
    have hgen : generate_related_queries cfg.llm cfg.loads q =
        Except.ok (PyVal.list es) := by
      rw [hllm]
      simp [generate_related_queries, hloads]
    have hextr : extract_query_values (PyVal.list es) =
        Except.error (PyError.typeError "string indices must be integers") := by
      cases es with
      | nil => exact absurd rfl hne
      | cons v vs =>
          have hv := hstr v (by simp)
          cases v <;> simp [isStr] at hv
          simp [extract_query_values, pyIter, map_subscript, pySubscript]
    simp only [chat, hgen, hextr]
  · intro es
    rw [show extract_query_values (PyVal.list es) = map_subscript "query" es from rfl]
    exact map_subscript_ok_iff es

/-- Witness: the C9 theorem applied to a concrete configuration whose query
expansion parses to `["a"]`, and to a singleton well-shaped dict list. -/
theorem related_query_shape_safety_witness :
    chat strListCfg [] "hi" =
      Except.error (PyError.typeError "string indices must be integers") ∧
    (∃ qs, extract_query_values (PyVal.list [PyVal.dict [("query", PyVal.str "x")]]) =
        Except.ok qs) := by
  constructor
  · exact related_query_shape_safety.1 strListCfg [] "hi"
      (fun _ => some (LLMResponse.withContent "[\"a\"]")) [PyVal.str "a"]
      rfl (by decide) (by decide) (by decide)
  · exact (related_query_shape_safety.2 [PyVal.dict [("query", PyVal.str "x")]]).mpr
      (by
        intro v hv
        simp at hv
        subst hv
        exact ⟨[("query", PyVal.str "x")], rfl, rfl⟩)

end DocumentQA
